import Mathlib

/-!
Verification of the "add components" engine (class `AddComponents`): path
validation, per-path component resolution, test-file and main-file DSL
matching, the exclusion pass, multi-path aggregation, and reconciliation of
resolved components against the persistent index (`bit.map`).

The engine's own code is embedded directly.  Its external collaborators
(filesystem, glob, node `path`, the persistent-index object, the identifier
service) live outside the embedded sources; they are modelled from the spec,
either as fields of an explicit `Env` record of opaque-to-the-engine
functions, or as small executable definitions marked `Modelled from the
spec`.  JavaScript exceptions become `Except` errors; the cooperative
concurrency of the original (independent path resolutions joined before any
index mutation) is modelled sequentially, which is observation-equivalent
because all index reads and writes happen after every resolution settles.
-/

/-- Token of a DSL path pattern: literal text or a named placeholder such as
PARENT or FILE_NAME.  Modelled from the spec: the `string-format` pattern
language used for test-file, main-file and exclude patterns. -/
inductive PatTok where
  | lit (s : String)
  | ph (p : String)
deriving DecidableEq, Repr

/-- A DSL pattern (`PathOrDSL` in the source): a sequence of tokens. -/
structure Pattern where
  toks : List PatTok
deriving DecidableEq, Repr

/-- `format(dsl, fileInfo)`: substitute each placeholder using the valuation
derived from one concrete file.  Modelled from the spec (the `string-format`
collaborator). -/
def Pattern.format (pat : Pattern) (info : String → String) : String :=
  pat.toks.foldl (fun acc t => acc ++ (match t with | .lit s => s | .ph p => info p)) ""

/-- `mainFile.match(REGEX_PATTERN)`: does the pattern contain a placeholder?
Modelled from the spec. -/
def Pattern.hasPh (pat : Pattern) : Bool :=
  pat.toks.any (fun t => match t with | .ph _ => true | .lit _ => false)

/-- A pattern holding a single concrete path: the value of the JS `mainFile`
string variable after it has been overwritten with an adopted path. -/
def Pattern.ofLit (s : String) : Pattern := ⟨[.lit s]⟩

/-- The raw string a pattern denotes (placeholders rendered back in brace
syntax), used where the JS code passes the pattern string itself on. -/
def Pattern.render (pat : Pattern) : String :=
  pat.toks.foldl
    (fun acc t => acc ++ (match t with | .lit s => s | .ph p => "\x7b" ++ p ++ "\x7d")) ""

/-- `ComponentMapFile` of the source: one tracked file. -/
structure ComponentMapFile where
  relativePath : String
  test : Bool
  name : String
deriving DecidableEq, Repr

/-- `COMPONENT_ORIGINS` of the source constants. -/
inductive Origin where
  | AUTHORED
  | IMPORTED
  | NESTED
deriving DecidableEq, Repr

/-- Identifier (component id).  Modelled from the spec: an opaque structured
value (namespace + name, optionally qualified with a scope and version) with
a canonical string rendering. -/
structure BitId where
  scope : Option String
  box : String
  name : String
  version : Option String
deriving DecidableEq, Repr

/-- Canonical rendering without the version qualifier.  Modelled from the
spec (`toStringWithoutQualification` side of the identifier service). -/
def BitId.toStringWithoutVersion (b : BitId) : String :=
  (match b.scope with | some sc => sc ++ "/" | none => "") ++ b.box ++ "/" ++ b.name

/-- Canonical string rendering.  Modelled from the spec. -/
def BitId.toString (b : BitId) : String :=
  b.toStringWithoutVersion ++ (match b.version with | some v => "@" ++ v | none => "")

/-- Split a string at a separator character (structural counterpart of the
library's `splitOn` for one-character separators, so that closed instances
evaluate). -/
def splitCharAux (sep : Char) : List Char → List Char → List String
  | acc, [] => [String.mk acc.reverse]
  | acc, c :: rest =>
    if c = sep then String.mk acc.reverse :: splitCharAux sep [] rest
    else splitCharAux sep (c :: acc) rest

/-- Split a string at every occurrence of `sep`. -/
def splitChar (s : String) (sep : Char) : List String := splitCharAux sep [] s.data

/-- `BitId.parse`.  Modelled from the spec: inverse of the canonical
rendering on well-formed identifier strings. -/
def BitId.parse (s : String) : BitId :=
  let parts := splitChar s '@'
  let base := parts.headD ""
  let version := match parts.tail with
    | [] => none
    | vs => some (String.intercalate "@" vs)
  match splitChar base '/' with
  | [] => ⟨none, "", "", version⟩
  | [n] => ⟨none, "", n, version⟩
  | [b, n] => ⟨none, b, n, version⟩
  | sc :: rest => ⟨some sc, String.intercalate "/" rest.dropLast, rest.getLastD "", version⟩

/-- `BitId.getValidBitId(namespace, name)`.  Modelled from the spec
(`deriveValid` of the identifier service). -/
def BitId.getValidBitId (box name : String) : BitId := ⟨none, box, name, none⟩

/-- Do two identifiers agree on namespace + name alone, ignoring scope and
version qualification?  Modelled from the spec (the lenient lookup key). -/
def BitId.sameBoxName (a b : BitId) : Bool :=
  a.box == b.box && a.name == b.name

/-- One tracked-component record of the persistent index. -/
structure BitMapRecord where
  origin : Origin
  rootDir : Option String
  files : List ComponentMapFile
  mainFile : Option String
deriving DecidableEq, Repr

/-- The in-memory persistent index: identifier-string to record, in insertion
order.  Modelled from the spec (§3 Persistent Index). -/
abbrev BitMap := List (String × BitMapRecord)

/-- `bitMap.getComponent(idStr)`: exact lookup by identifier string.
Modelled from the spec. -/
def BitMap.getComponent (bm : BitMap) (idStr : String) : Option BitMapRecord :=
  (bm.find? (fun e => e.1 == idStr)).map (·.2)

/-- `bitMap.getComponent(id, shouldThrow = false, includeSearchByBoxAndNameOnly
= true)`: exact lookup first, then a lenient lookup matching namespace + name
alone.  Modelled from the spec (§4.8). -/
def BitMap.getComponentLenient (bm : BitMap) (bid : BitId) : Option BitMapRecord :=
  match bm.find? (fun e => e.1 == bid.toString) with
  | some e => some e.2
  | none => (bm.find? (fun e => (BitId.parse e.1).sameBoxName bid)).map (·.2)

/-- `bitMap.getExistingComponentId(currentId)`: the stored identifier string
matching `currentId` exactly or by namespace + name alone.  Modelled from the
spec (§4.4 identifier resolution). -/
def BitMap.getExistingComponentId (bm : BitMap) (currentId : String) : Option String :=
  match bm.find? (fun e => e.1 == currentId) with
  | some e => some e.1
  | none =>
    (bm.find? (fun e => (BitId.parse e.1).sameBoxName (BitId.parse currentId))).map (·.1)

/-- `bitMap.getComponentIdByPath(path)`: which tracked identifier currently
owns this file path.  Modelled from the spec (each tracked path maps to at
most one identifier; first match in index order). -/
def BitMap.getComponentIdByPath (bm : BitMap) (p : String) : Option String :=
  (bm.find? (fun e => e.2.files.any (fun f => f.relativePath == p))).map (·.1)

/-- `bitMap.getAllComponents(origin)`: all records of one origin.  Modelled
from the spec. -/
def BitMap.getAllComponents (bm : BitMap) (o : Origin) : List (String × BitMapRecord) :=
  bm.filter (fun e => e.2.origin == o)

/-- First-occurrence deduplication of a string list (`R.uniq`). -/
def uniqStringsAux : List String → List String → List String
  | _, [] => []
  | seen, a :: l =>
    if seen.contains a then uniqStringsAux seen l
    else a :: uniqStringsAux (a :: seen) l

/-- `R.uniq`: deduplicate keeping the first occurrence of each element. -/
def uniqStrings (l : List String) : List String := uniqStringsAux [] l

/-- `R.flatten` / flat `map` composition over lists. -/
def flatMapL (f : α → List β) : List α → List β
  | [] => []
  | a :: l => f a ++ flatMapL f l

/-- First-occurrence deduplication of file entries keyed by `relativePath`. -/
def uniqByPathAux : List String → List ComponentMapFile → List ComponentMapFile
  | _, [] => []
  | seen, f :: rest =>
    if seen.contains f.relativePath then uniqByPathAux seen rest
    else f :: uniqByPathAux (f.relativePath :: seen) rest

/-- `unionBy(l1, l2, 'relativePath')`: union keyed by relative path where the
first occurrence (preferring `l1`) wins. -/
def unionByPath (l1 l2 : List ComponentMapFile) : List ComponentMapFile :=
  uniqByPathAux [] (l1 ++ l2)

/-- `bitMap.addComponent({componentId, files, mainFile, rootDir, origin,
override})`: upsert under the identifier string; `override` replaces an
existing record's file set outright, otherwise the file sets are merged by
relative path.  Returns the materialized record as stored.  Modelled from the
spec (§4.8, §6). -/
def BitMap.addComponent (bm : BitMap) (idStr : String) (files : List ComponentMapFile)
    (mainFile : Option String) (rootDir : Option String) (origin : Origin)
    (override : Bool) : BitMapRecord × BitMap :=
  let newRec : BitMapRecord :=
    match bm.find? (fun e => e.1 == idStr), override with
    | some e, false => ⟨origin, rootDir, unionByPath files e.2.files, mainFile⟩
    | _, _ => ⟨origin, rootDir, files, mainFile⟩
  if bm.any (fun e => e.1 == idStr) then
    (newRec, bm.map (fun e => if e.1 == idStr then (idStr, newRec) else e))
  else (newRec, bm ++ [(idStr, newRec)])

/-- The errors the add engine throws (`exceptions/` of the source, plus the
namespace-collision `Error` thrown inline by
`_getIdAccordingToExistingComponent`, plus the TypeError a JS run would raise
on a component whose identifier was never resolved — unreachable from
`add`). -/
inductive AddError where
  | pathsNotExist (paths : List String)
  | noFiles (diff : List String)
  | emptyDirectory
  | duplicateIds (ids : List String)
  | missingComponentIdForImportedComponent (id : String)
  | incorrectIdForImportedComponent (existingId : String) (suppliedId : String)
  | namespaceCollision (existingId : String)
  | invalidId
deriving DecidableEq, Repr

/-- The external collaborators of one invocation, plus the consumer state it
starts from.  Every field models, from the spec, one utility the engine calls
(filesystem checks, the three glob call shapes, the ignore predicate, node
`path` helpers, `calculateFileInfo` placeholder valuations). -/
structure Env where
  consumerPath : String
  bitMap : BitMap
  distTarget : Bool
  existsSync : String → Bool
  isDir : String → Bool
  glob : String → List String
  globDsl : Pattern → List String
  globIgnore : String → List String → List String
  globNodir : String → List String
  ignoreFilter : List String → List String → List String
  retrieveIgnoreList : String → List String
  getMissingTestFiles : List Pattern → List String
  fileInfo : String → String → String
  getPathRelativeToConsumer : String → String
  pathNormalizeToLinux : String → String
  pathNormalize : String → String
  pathResolve : String → String
  pathRelative : String → String → String
  pathJoin : String → String → String
  pathJoinLinux : String → String → String
  basename : String → String
  basenameNoExt : String → String
  dirname : String → String
  isAutoGeneratedFile : String → Bool

/-- `AddProps` of the source: the request object of one invocation. -/
structure AddProps where
  componentPaths : List String
  id : Option String
  main : Option Pattern
  nspace : Option String
  tests : List Pattern
  exclude : List Pattern
  override : Bool

/-- `PathsStats`: validated input paths with their is-directory flag, in
insertion order. -/
abbrev PathsStats := List (String × Bool)

/-- Warnings: conflicting existing-identifier string to dropped file paths. -/
abbrev Warnings := List (String × List String)

/-- `this.warnings[id].push(p)` with creation on first use. -/
def pushWarning (w : Warnings) (id : String) (p : String) : Warnings :=
  if w.any (fun e => e.1 == id) then
    w.map (fun e => if e.1 == id then (e.1, e.2 ++ [p]) else e)
  else w ++ [(id, [p])]

/-- One `{ id, files }` entry of the returned `AddActionResults`. -/
structure AddResult where
  id : String
  files : List ComponentMapFile
deriving DecidableEq, Repr

/-- `AddActionResults` of the source. -/
structure AddActionResults where
  addedComponents : List AddResult
  warnings : Warnings
deriving DecidableEq, Repr

/-- `AddedComponent` of the source: one resolved component before
reconciliation.  `componentId` is optional because the JS variable
`finalBitId` starts undefined; every reachable resolution sets it. -/
structure AddedComponent where
  componentId : Option BitId
  files : List ComponentMapFile
  mainFile : Option String
  rootDir : Option String
deriving DecidableEq, Repr

/-- The consumer state threaded through one invocation: the in-memory index,
the accumulated warnings, and the snapshots flushed to storage (`writes`
grows only when `bitMap.write()` runs). -/
structure AddState where
  bitMap : BitMap
  warnings : Warnings
  writes : List BitMap
deriving DecidableEq, Repr

/-- `bitMap.write()`: flush the in-memory index to storage. -/
def AddState.write (st : AddState) : AddState :=
  { st with writes := st.writes ++ [st.bitMap] }

/-- `getFilesAccordingToDsl(files, filesWithPotentialDsl)`: substitute every
DSL pattern against every input file's placeholder valuation, glob the
result (honoring the ignore list), keep only matches existing on disk,
deduplicate, and normalize relative to the tracking root in forward-slash
form (source lines 123-139). -/
def getFilesAccordingToDsl (env : Env) (il : List String) (files : List String)
    (dsls : List Pattern) : List String :=
  let filesListFlatten := flatMapL (fun dsl =>
    flatMapL (fun file =>
      let generatedFile := dsl.format (env.fileInfo file)
      (env.globIgnore generatedFile il).filter env.existsSync) files) dsls
  (uniqStrings filesListFlatten).map
    (fun file => env.pathNormalizeToLinux (env.getPathRelativeToConsumer file))

/-- The `isImported` flag of `addOrUpdateComponentInBitMap` (source lines
178-180): the found existing record for this component's identifier has
origin IMPORTED, or the file's current owner has origin IMPORTED. -/
def isImportedFile (bm : BitMap) (foundComponentFromBitMap : Option BitMapRecord)
    (file : ComponentMapFile) : Bool :=
  let existingIdOfFile := BitMap.getComponentIdByPath bm file.relativePath
  let existingComponentOfFile := existingIdOfFile.bind (fun e => BitMap.getComponent bm e)
  (match foundComponentFromBitMap with
   | some r => r.origin == Origin.IMPORTED
   | none => false) ||
  (match existingComponentOfFile with
   | some r => r.origin == Origin.IMPORTED
   | none => false)

/-- The per-file body of `addOrUpdateComponentInBitMap` (source lines
172-205).  Result: the kept file entry (`none` when the file is dropped) and
the warning entry to record, or the thrown error.  The JS code mutates a
re-anchored entry of the found record in place; only the returned entry is
observed by the claims modelled here. -/
def processFile (env : Env) (props : AddProps) (bm : BitMap)
    (foundComponentFromBitMap : Option BitMapRecord) (parsedBitId : BitId)
    (file : ComponentMapFile) :
    Except AddError (Option ComponentMapFile × Option (String × String)) :=
  if env.isAutoGeneratedFile (env.pathJoin env.consumerPath file.relativePath) then
    .ok (none, none)
  else
    let existingIdOfFile := BitMap.getComponentIdByPath bm file.relativePath
    let idOfFileIsDifferent : Bool :=
      match existingIdOfFile with
      | some e => e != parsedBitId.toString
      | none => false
    if isImportedFile bm foundComponentFromBitMap file then
      match props.id with
      | none =>
        .error (.missingComponentIdForImportedComponent parsedBitId.toStringWithoutVersion)
      | some suppliedId =>
        if idOfFileIsDifferent then
          .error (.incorrectIdForImportedComponent
            ((BitId.parse (existingIdOfFile.getD "")).toStringWithoutVersion) suppliedId)
        else
          match foundComponentFromBitMap with
          | some fc =>
            let tempFile := env.pathRelative (fc.rootDir.getD "") file.relativePath
            match fc.files.find? (fun f => f.relativePath == tempFile) with
            | some foundFile =>
              .ok (some { foundFile with
                relativePath := env.pathJoin (fc.rootDir.getD "") foundFile.relativePath },
                none)
            | none => .ok (some file, none)
          | none => .ok (some file, none)
    else if idOfFileIsDifferent then
      .ok (none, some (existingIdOfFile.getD "", file.relativePath))
    else .ok (some file, none)

/-- The `component.files.map(...).filter(file => file)` pass of
`addOrUpdateComponentInBitMap`: files processed in order, the first thrown
error aborting, warnings accumulated into the state. -/
def processFiles (env : Env) (props : AddProps) (bm : BitMap)
    (found : Option BitMapRecord) (parsedBitId : BitId) :
    List ComponentMapFile → Warnings → Except AddError (List ComponentMapFile × Warnings)
  | [], w => .ok ([], w)
  | f :: rest, w =>
    match processFile env props bm found parsedBitId f with
    | .error e => .error e
    | .ok (keep, warn) =>
      let w1 := match warn with
        | some (i, p) => pushWarning w i p
        | none => w
      match processFiles env props bm found parsedBitId rest w1 with
      | .error e => .error e
      | .ok (kept, w2) =>
        .ok ((match keep with | some k => [k] | none => []) ++ kept, w2)

/-- `addToBitMap` (source lines 141-151): upsert with origin forced to
AUTHORED, returning `{ id, files }` as materialized. -/
def addToBitMap (props : AddProps) (st : AddState) (componentId : BitId)
    (files : List ComponentMapFile) (mainFile : Option String)
    (rootDir : Option String) : AddResult × AddState :=
  let r := BitMap.addComponent st.bitMap componentId.toString files mainFile rootDir
    Origin.AUTHORED props.override
  (⟨componentId.toString, r.1.files⟩, { st with bitMap := r.2 })

/-- `addOrUpdateComponentInBitMap` (source lines 160-209): per-file imported
checks, conflict warnings, empty-set skip, and the upsert. -/
def addOrUpdateComponentInBitMap (env : Env) (props : AddProps) (st : AddState)
    (component : AddedComponent) : Except AddError (Option AddResult × AddState) :=
  match component.componentId with
  | none => .error .invalidId
  | some parsedBitId =>
    let foundComponentFromBitMap := BitMap.getComponentLenient st.bitMap parsedBitId
    match processFiles env props st.bitMap foundComponentFromBitMap parsedBitId
        component.files st.warnings with
    | .error e => .error e
    | .ok (files2, w2) =>
      if files2.isEmpty then .ok (none, { st with warnings := w2 })
      else
        let r := addToBitMap props { st with warnings := w2 } parsedBitId files2
          component.mainFile component.rootDir
        .ok (some r.1, r.2)

/-- The exclusion applied to one component (source lines 215-225): if the
normalized main file is among the resolved excluded files the whole file set
is dropped, otherwise only the individually matched files are removed. -/
def excludeStep (env : Env) (resolvedExcludedFiles : List String)
    (c : AddedComponent) : AddedComponent :=
  let mainFile := c.mainFile.map env.pathNormalizeToLinux
  if (match mainFile with
      | some m => resolvedExcludedFiles.contains m
      | none => false) then
    { c with files := [] }
  else
    { c with files := c.files.filter (fun k => !(resolvedExcludedFiles.contains k.relativePath)) }

/-- `removeExcludedFiles` (source lines 212-226): resolve the exclude
patterns against the union of all candidate files, then strip each
component. -/
def removeExcludedFiles (env : Env) (il : List String) (exclude : List Pattern)
    (componentsWithFiles : List AddedComponent) : List AddedComponent :=
  let files := flatMapL (fun c => c.files.map (·.relativePath)) componentsWithFiles
  let resolvedExcludedFiles := getFilesAccordingToDsl env il files exclude
  componentsWithFiles.map (excludeStep env resolvedExcludedFiles)

/-- `_getIdAccordingToExistingComponent` (source lines 232-242): adopt the
already-stored canonical identifier when one with the same namespace + name
exists, failing when that record's origin is NESTED. -/
def getIdAccordingToExistingComponent (bm : BitMap) (currentId : String) :
    Except AddError BitId :=
  match BitMap.getExistingComponentId bm currentId with
  | some existingComponentId =>
    if (match BitMap.getComponent bm existingComponentId with
        | some r => r.origin == Origin.NESTED
        | none => false) then
      .error (.namespaceCollision existingComponentId)
    else .ok (BitId.parse existingComponentId)
  | none => .ok (BitId.parse currentId)

/-- One iteration of the `files.forEach` loop of `_addMainFileToFiles`
(source lines 250-261), over the state (current `mainFile` value, current
file array).  Finding the substituted path in the array adopts it; an
on-disk path not in the array is appended and adopted. -/
def mainFileStep (env : Env) (st : Pattern × List ComponentMapFile) (fileRel : String) :
    Pattern × List ComponentMapFile :=
  let generatedFile := st.1.format (env.fileInfo fileRel)
  match st.2.find? (fun f => f.relativePath == generatedFile) with
  | some foundFile => (Pattern.ofLit foundFile.relativePath, st.2)
  | none =>
    if env.existsSync generatedFile then
      (Pattern.ofLit generatedFile,
       st.2 ++ [⟨generatedFile, false, env.basename generatedFile⟩])
    else st

/-- The whole `forEach` loop: the iteration range is the original file list
(entries pushed during the loop are not visited), while lookups see the
current array. -/
def mainFileLoop (env : Env) (m0 : Pattern) (files : List ComponentMapFile) :
    Pattern × List ComponentMapFile :=
  (files.map (·.relativePath)).foldl (mainFileStep env) (m0, files)

/-- `_addMainFileToFiles` (source lines 247-270): run the DSL loop when the
pattern bears a placeholder, then resolve the resulting main-file string
relative to the tracking root, preferring the relative form when it exists
on disk. -/
def addMainFileToFiles (env : Env) (main : Option Pattern)
    (files : List ComponentMapFile) : List ComponentMapFile × Option String :=
  match main with
  | none => (files, none)
  | some m0 =>
    let st := if m0.hasPh then mainFileLoop env m0 files else (m0, files)
    let s := st.1.render
    if s.isEmpty then (st.2, none)
    else
      let mainFileRelativeToConsumer := env.getPathRelativeToConsumer s
      let mainPath := env.pathJoin env.consumerPath mainFileRelativeToConsumer
      if env.existsSync mainPath then (st.2, some mainFileRelativeToConsumer)
      else (st.2, some s)

/-- `_mergeTestFilesWithFiles` (source lines 272-283): resolve the test DSL
patterns against the current files and union by relative path, the
DSL-resolved test entries listed first. -/
def mergeTestFilesWithFiles (env : Env) (il : List String) (tests : List Pattern)
    (files : List ComponentMapFile) : List ComponentMapFile :=
  let testFilesArr :=
    if tests.isEmpty then []
    else getFilesAccordingToDsl env il (files.map (·.relativePath)) tests
  let resolvedTestFiles := testFilesArr.map
    (fun testFile => (⟨testFile, true, env.basename testFile⟩ : ComponentMapFile))
  unionByPath resolvedTestFiles files

/-- `validatePaths` (source lines 56-67): walk the paths in order, throw
`PathsNotExist` at the first path absent from disk (carrying that single
path), and record the is-directory flag of each existing one; a repeated
path overwrites its earlier entry, as for a JS object key. -/
def validatePathsGo (env : Env) : List String → PathsStats → Except AddError PathsStats
  | [], stats => .ok stats
  | componentPath :: rest, stats =>
    if !env.existsSync componentPath then .error (.pathsNotExist [componentPath])
    else
      let stats1 :=
        if stats.any (fun e => e.1 == componentPath) then
          stats.map (fun e => if e.1 == componentPath then (componentPath, env.isDir componentPath) else e)
        else stats ++ [(componentPath, env.isDir componentPath)]
      validatePathsGo env rest stats1

/-- `validatePaths(fileArray)`. -/
def validatePaths (env : Env) (fileArray : List String) : Except AddError PathsStats :=
  validatePathsGo env fileArray []

/-- The string key `groupby(addComponents, 'componentId')` coerces a
component's identifier to. -/
def componentIdKey (c : AddedComponent) : String :=
  match c.componentId with
  | some b => b.toString
  | none => "undefined"

/-- `validateNoDuplicateIds` (source lines 72-79): fail with `DuplicateIds`
when two resolved components share an identifier key. -/
def validateNoDuplicateIds (addComponents : List AddedComponent) : Except AddError Unit :=
  let duplicateIds := (uniqStrings (addComponents.map componentIdKey)).filter
    (fun key => 1 < (addComponents.filter (fun c => componentIdKey c == key)).length)
  if duplicateIds.isEmpty then .ok () else .error (.duplicateIds duplicateIds)

/-- The merge `assignwith({}, ...group, (val1, val2) => val1 || val2)`
performs on two file entries sharing a relative path: per field, the
earlier value wins unless it is falsy (empty string, `false`), in which
case the later value is taken. -/
def mergeTwoFiles (a b : ComponentMapFile) : ComponentMapFile :=
  ⟨if a.relativePath.isEmpty then b.relativePath else a.relativePath,
   a.test || b.test,
   if a.name.isEmpty then b.name else a.name⟩

/-- `groupby(files, 'relativePath')` key order: first occurrence of each
relative path. -/
def groupByPathKeys (files : List ComponentMapFile) : List String :=
  uniqStrings (files.map (·.relativePath))

/-- The `groupedComponents` / `uniqComponents` collapse of `addOneComponent`
(source lines 369-372): group the concatenated file entries by relative path
and fold each group with the first-truthy-field-wins merge. -/
def mergeFilesByPath (files : List ComponentMapFile) : List ComponentMapFile :=
  (groupByPathKeys files).map (fun key =>
    match files.filter (fun f => f.relativePath == key) with
    | [] => ⟨key, false, ""⟩
    | g :: gs => gs.foldl mergeTwoFiles g)

/-- One iteration of the per-path resolution loop of `addOneComponent`
(source lines 297-353), for one path known to be a directory or a file.
`totalLen` is the number of keys of the whole `componentPathsStats` object
(the JS closure reads it to decide `rootDir`); `finalBitId` is the
closed-over mutable identifier, set by the first iteration that resolves
one. -/
def resolveOnePath (env : Env) (props : AddProps) (il : List String) (totalLen : Nat)
    (componentPath : String) (isDirPath : Bool) (finalBitId : Option BitId) :
    Except AddError (AddedComponent × Option BitId) :=
  if isDirPath then
    let relativeComponentPath := env.getPathRelativeToConsumer componentPath
    let absoluteComponentPath := env.pathResolve componentPath
    let splitPath := splitChar absoluteComponentPath '/'
    let lastDir := splitPath.getLastD ""
    let nameSpaceOrDir := props.nspace.getD (splitPath.dropLast.getLastD "")
    let matched := env.globNodir (env.pathJoin relativeComponentPath "**")
    let filteredMatches := env.ignoreFilter il matched
    if filteredMatches.isEmpty then .error .emptyDirectory
    else
      let files0 := filteredMatches.map (fun m =>
        (⟨env.pathNormalizeToLinux m, false, env.basename m⟩ : ComponentMapFile))
      let files1 := mergeTestFilesWithFiles env il props.tests files0
      let r := addMainFileToFiles env props.main files1
      match (match finalBitId with
             | some b => Except.ok b
             | none =>
               let idFromPath := BitId.getValidBitId nameSpaceOrDir lastDir
               getIdAccordingToExistingComponent env.bitMap idFromPath.toString) with
      | .error e => .error e
      | .ok bid =>
        let rootDir := if totalLen == 1 then some relativeComponentPath else none
        .ok (⟨some bid, r.1, r.2, rootDir⟩, some bid)
  else
    let resolvedPath := env.pathResolve componentPath
    let relativeFilePath := env.getPathRelativeToConsumer componentPath
    match (match finalBitId with
           | some b => Except.ok b
           | none =>
             let dirName := env.dirname resolvedPath
             let nameSpaceOrLastDir := props.nspace.getD ((splitChar dirName '/').getLastD "")
             let idFromPath :=
               BitId.getValidBitId nameSpaceOrLastDir (env.basenameNoExt resolvedPath)
             getIdAccordingToExistingComponent env.bitMap idFromPath.toString) with
    | .error e => .error e
    | .ok bid =>
      let files0 := [(⟨env.pathNormalizeToLinux relativeFilePath, false,
        env.basename relativeFilePath⟩ : ComponentMapFile)]
      let files1 := mergeTestFilesWithFiles env il props.tests files0
      let r := addMainFileToFiles env props.main files1
      .ok (⟨some bid, r.1, r.2, none⟩, some bid)

/-- The whole per-path loop (`componentsWithFilesP`, joined in order): the
first thrown error aborts, the mutable `finalBitId` is threaded through. -/
def resolveGroups (env : Env) (props : AddProps) (il : List String) (totalLen : Nat) :
    List (String × Bool) → Option BitId →
    Except AddError (List AddedComponent × Option BitId)
  | [], fid => .ok ([], fid)
  | (p, d) :: rest, fid =>
    match resolveOnePath env props il totalLen p d fid with
    | .error e => .error e
    | .ok (c, fid1) =>
      match resolveGroups env props il totalLen rest fid1 with
      | .error e => .error e
      | .ok (cs, fid2) => .ok (c :: cs, fid2)

/-- The tail of `addOneComponent` (source lines 363-378): no surviving
group yields an empty component, a single surviving group is returned
as-is, several surviving groups collapse into one component — files merged
by relative path, `mainFile`/`rootDir` from the first surviving group. -/
def assembleComponents (componentId : Option BitId) :
    List AddedComponent → AddedComponent
  | [] => ⟨componentId, [], none, none⟩
  | [c] => c
  | c :: cs =>
    ⟨componentId, mergeFilesByPath (flatMapL (·.files) (c :: cs)),
      c.mainFile, c.rootDir⟩

/-- Lines 292-295 of `addOneComponent`: when the user supplied an id,
normalize it against the index once, up front. -/
def resolveInitialId (env : Env) (props : AddProps) : Except AddError (Option BitId) :=
  match props.id with
  | some i => (getIdAccordingToExistingComponent env.bitMap i).map some
  | none => Except.ok none

/-- `addOneComponent` (source lines 291-379): resolve every path group,
apply the exclusion pass, drop emptied groups, and assemble the result. -/
def addOneComponent (env : Env) (props : AddProps) (il : List String)
    (componentPathsStats : PathsStats) : Except AddError AddedComponent :=
  match resolveInitialId env props with
  | .error e => .error e
  | .ok finalBitId0 =>
    match resolveGroups env props il componentPathsStats.length componentPathsStats
        finalBitId0 with
    | .error e => .error e
    | .ok (groups0, fidFinal) =>
      let groups1 :=
        if props.exclude.isEmpty then groups0
        else removeExcludedFiles env il props.exclude groups0
      .ok (assembleComponents fidFinal (groups1.filter (fun c => !c.files.isEmpty)))

/-- The default distribution output directory name.  Modelled from the spec
(`DEFAULT_DIST_DIRNAME` of the constants collaborator). -/
def DEFAULT_DIST_DIRNAME : String := "dist"

/-- `getIgnoreList` (source lines 381-391): the base ignore list, extended —
when no custom distribution target is configured — with the dist directories
of all IMPORTED components. -/
def getIgnoreList (env : Env) : List String :=
  let ignoreList := env.retrieveIgnoreList env.consumerPath
  if !env.distTarget then
    ignoreList ++ (BitMap.getAllComponents env.bitMap Origin.IMPORTED).map
      (fun e => env.pathJoinLinux (env.pathJoinLinux (e.2.rootDir.getD "")
        DEFAULT_DIST_DIRNAME) "**")
  else ignoreList

/-- `arrayDiff(a, b)`: symmetric difference, as computed by the
`array-difference` collaborator (modelled from the spec, used only for the
`NoFiles` diagnostic payload). -/
def arrayDiffSym (a b : List String) : List String :=
  a.filter (fun x => !(b.contains x)) ++ b.filter (fun x => !(a.contains x))

/-- Lines 401-422 of `add`: glob the component paths, apply the ignore
filter, and produce `componentPathsStats` — from the globbed test patterns
when tests plus an explicit id were supplied and the component-path glob
matched nothing, otherwise from the filtered component paths, failing with
`PathsNotExist` or `NoFiles`. -/
def resolveComponentPathsStats (env : Env) (props : AddProps) (il : List String) :
    Except AddError PathsStats :=
  let resolvedComponentPathsWithoutGitIgnore := flatMapL env.glob props.componentPaths
  let resolvedComponentPathsWithGitIgnore :=
    env.ignoreFilter il resolvedComponentPathsWithoutGitIgnore
  let diff := arrayDiffSym resolvedComponentPathsWithGitIgnore
    resolvedComponentPathsWithoutGitIgnore
  if !props.tests.isEmpty && props.id.isSome &&
      resolvedComponentPathsWithoutGitIgnore.isEmpty then
    let resolvedTestFiles := flatMapL env.globDsl props.tests
    validatePaths env resolvedTestFiles
  else if resolvedComponentPathsWithoutGitIgnore.isEmpty then
    .error (.pathsNotExist props.componentPaths)
  else if !resolvedComponentPathsWithGitIgnore.isEmpty then
    validatePaths env resolvedComponentPathsWithGitIgnore
  else .error (.noFiles diff)

/-- Line 425 of `add`: multiple resolved paths without an explicit id mean
one component per path. -/
def isMultipleComponents (props : AddProps) (stats : PathsStats) : Bool :=
  decide (1 < stats.length) && props.id.isNone

/-- Lines 429-432 of `add`: in multiple-components mode, input paths that
the test DSL patterns resolve to are deleted (after `path.normalize`) from
the stats object before per-path resolution. -/
def multiModePaths (env : Env) (props : AddProps) (il : List String)
    (stats : PathsStats) : PathsStats :=
  let testToRemove :=
    if props.tests.isEmpty then []
    else getFilesAccordingToDsl env il (stats.map (·.1)) props.tests
  let normalized := testToRemove.map env.pathNormalize
  stats.filter (fun e => !(normalized.contains e.1))

/-- Lines 433-436 of `add`: resolve each surviving path as its own
component, each call seeing a singleton stats object. -/
def resolveEachPath (env : Env) (props : AddProps) (il : List String) :
    List (String × Bool) → Except AddError (List AddedComponent)
  | [] => .ok []
  | e :: rest =>
    match addOneComponent env props il [e] with
    | .error er => .error er
    | .ok c =>
      match resolveEachPath env props il rest with
      | .error er => .error er
      | .ok cs => .ok (c :: cs)

/-- The reconciliation loops of `add` (lines 440-445 and 451-454): skip
components with no files, reconcile the rest in order against the index,
collecting the non-skipped results. -/
def reconcileAll (env : Env) (props : AddProps) :
    List AddedComponent → AddState → List AddResult →
    Except AddError (List AddResult × AddState)
  | [], st, acc => .ok (acc, st)
  | c :: cs, st, acc =>
    if c.files.isEmpty then reconcileAll env props cs st acc
    else
      match addOrUpdateComponentInBitMap env props st c with
      | .error e => .error e
      | .ok (some r, st1) => reconcileAll env props cs st1 (acc ++ [r])
      | .ok (none, st1) => reconcileAll env props cs st1 acc

/-- The multiple-components branch of `add` (lines 427-445). -/
def addMulti (env : Env) (props : AddProps) (il : List String) (stats : PathsStats)
    (st : AddState) : Except AddError (List AddResult × AddState) :=
  match resolveEachPath env props il (multiModePaths env props il stats) with
  | .error e => .error e
  | .ok added =>
    match validateNoDuplicateIds added with
    | .error e => .error e
    | .ok _ => reconcileAll env props added st []

/-- The single-component branch of `add` (lines 446-455). -/
def addSingle (env : Env) (props : AddProps) (il : List String) (stats : PathsStats)
    (st : AddState) : Except AddError (List AddResult × AddState) :=
  match addOneComponent env props il stats with
  | .error e => .error e
  | .ok addedOne => reconcileAll env props [addedOne] st []

/-- `add` up to but excluding the final `bitMap.write()` (source lines
393-455): ignore setup, missing-test-file check, stats resolution, branch
dispatch, resolution and reconciliation. -/
def addInner (env : Env) (props : AddProps) :
    Except AddError (List AddResult × AddState) :=
  let il := getIgnoreList env
  let missingFiles := env.getMissingTestFiles props.tests
  if !missingFiles.isEmpty then .error (.pathsNotExist missingFiles)
  else
    match resolveComponentPathsStats env props il with
    | .error e => .error e
    | .ok stats =>
      let st0 : AddState := ⟨env.bitMap, [], []⟩
      if isMultipleComponents props stats then addMulti env props il stats st0
      else addSingle env props il stats st0

/-- `add` (source lines 393-458): on success, flush the in-memory index to
storage once (`await this.bitMap.write()`) and return the added components
with the accumulated warnings; a thrown error propagates with nothing
written. -/
def add (env : Env) (props : AddProps) :
    Except AddError AddActionResults × List BitMap :=
  match addInner env props with
  | .error e => (.error e, [])
  | .ok (addedComponents, st) =>
    let st2 := st.write
    (.ok ⟨addedComponents, st2.warnings⟩, st2.writes)

/-- Last path segment (a concrete `path.basename` for the test
environments below). -/
def lastSeg (s : String) : String := (splitChar s '/').getLastD ""

/-- A baseline concrete environment for the closed instances below: empty
index, nothing on disk, identity path normalization, resolution rooted at
`/r`. -/
def baseEnv : Env :=
  { consumerPath := ""
    bitMap := []
    distTarget := true
    existsSync := fun _ => false
    isDir := fun _ => false
    glob := fun _ => []
    globDsl := fun _ => []
    globIgnore := fun _ _ => []
    globNodir := fun _ => []
    ignoreFilter := fun _ l => l
    retrieveIgnoreList := fun _ => []
    getMissingTestFiles := fun _ => []
    fileInfo := fun _ _ => ""
    getPathRelativeToConsumer := fun p => p
    pathNormalizeToLinux := fun p => p
    pathNormalize := fun p => p
    pathResolve := fun p => "/r/" ++ p
    pathRelative := fun _ p => p
    pathJoin := fun a b => if a.isEmpty then b else a ++ "/" ++ b
    pathJoinLinux := fun a b => if a.isEmpty then b else a ++ "/" ++ b
    basename := lastSeg
    basenameNoExt := fun s => (splitChar (lastSeg s) '.').headD ""
    dirname := fun s => String.intercalate "/" ((splitChar s '/').dropLast)
    isAutoGeneratedFile := fun _ => false }

/-- A baseline request: no paths, no id, no patterns, no override. -/
def baseProps : AddProps := ⟨[], none, none, none, [], [], false⟩

-- Decidable equality on results, for the closed concrete theorems.
deriving instance DecidableEq for Except

/-! ## Concrete instances used by the closed theorems below -/

/-- Environment with exactly `e` on disk. -/
def envC8 : Env := { baseEnv with existsSync := fun s => s == "e" }

/-- Component with main file `m.js` plus `o.js`, for the exclusion witness. -/
def compC5 : AddedComponent :=
  ⟨none, [⟨"m.js", false, "m.js"⟩, ⟨"o.js", false, "o.js"⟩], some "m.js", none⟩

/-- Environment where `m.js` exists and globs to itself. -/
def envC5 : Env :=
  { baseEnv with
    existsSync := fun s => s == "m.js"
    globIgnore := fun g _ => if g == "m.js" then ["m.js"] else [] }

/-- Exclude pattern naming `m.js` literally. -/
def excludeC5 : List Pattern := [⟨[.lit "m.js"]⟩]

/-- Environment for the test-fallback witness: the component path globs to
nothing, the test pattern globs to the on-disk file `t.js`. -/
def envC9 : Env :=
  { baseEnv with
    existsSync := fun s => s == "t.js"
    globDsl := fun p => if p == ⟨[.lit "t.js"]⟩ then ["t.js"] else [] }

/-- Request for the test-fallback witness: an explicit id, a test pattern,
and a component path globbing to nothing. -/
def propsC9 : AddProps :=
  { baseProps with
    componentPaths := ["nope"]
    id := some "x/y"
    tests := [⟨[.lit "t.js"]⟩] }

/-- Environment for the multi-mode test-removal witness: two files on disk,
each globbing to itself, the test DSL resolving every file to
`a.spec.js`. -/
def envC10 : Env :=
  { baseEnv with
    existsSync := fun s => s == "a.js" || s == "a.spec.js"
    glob := fun p =>
      if p == "a.js" then ["a.js"]
      else if p == "a.spec.js" then ["a.spec.js"] else []
    globIgnore := fun g _ => if g == "a.spec.js" then ["a.spec.js"] else []
    fileInfo := fun _ _ => "a.spec.js" }

/-- Request for the multi-mode test-removal witness: two paths, no id, one
test DSL pattern. -/
def propsC10 : AddProps :=
  { baseProps with
    componentPaths := ["a.js", "a.spec.js"]
    tests := [⟨[.ph "S"]⟩] }

/-- Index for the conflict-branch counterexample: the component's own
identifier is tracked as IMPORTED while the candidate file `x.js` is owned
by a different, AUTHORED component. -/
def bmC2 : BitMap :=
  [("ns/comp", ⟨Origin.IMPORTED, some "root", [], none⟩),
   ("other/own", ⟨Origin.AUTHORED, none, [⟨"x.js", false, "x.js"⟩], none⟩)]

/-- Environment over `bmC2`. -/
def envC2 : Env := { baseEnv with bitMap := bmC2 }

/-- Request supplying the component's own (imported) identifier. -/
def propsC2 : AddProps := { baseProps with id := some "ns/comp" }

/-- State over `bmC2`. -/
def stC2 : AddState := ⟨bmC2, [], []⟩

/-- Candidate component whose single file is owned by `other/own`. -/
def compC2 : AddedComponent :=
  ⟨some (BitId.parse "ns/comp"), [⟨"x.js", false, "x.js"⟩], none, none⟩

/-- Index for the conflict-warning witness: only the AUTHORED owner of
`x.js`, nothing imported anywhere. -/
def bmC2b : BitMap :=
  [("other/own", ⟨Origin.AUTHORED, none, [⟨"x.js", false, "x.js"⟩], none⟩)]

/-- Environment over `bmC2b`. -/
def envC2b : Env := { baseEnv with bitMap := bmC2b }

/-- Index for the imported-id witness: `x.js` tracked under the IMPORTED
record `ns/comp`. -/
def bmC1 : BitMap :=
  [("ns/comp", ⟨Origin.IMPORTED, some "comp-root", [⟨"x.js", false, "x.js"⟩], none⟩)]

/-- Environment over `bmC1`. -/
def envC1 : Env := { baseEnv with bitMap := bmC1 }

/-- State over `bmC1`. -/
def stC1 : AddState := ⟨bmC1, [], []⟩

/-- Candidate component re-adding `x.js` under the imported identifier. -/
def compC1 : AddedComponent :=
  ⟨some (BitId.parse "ns/comp"), [⟨"x.js", false, "x.js"⟩], none, none⟩

/-- Environment for the main-file counterexample: `c.js` and `a.js` exist
on disk; the placeholder substitutes to `a.js` for file `a.js` and to
`c.js` for file `b.js`. -/
def envC6 : Env :=
  { baseEnv with
    existsSync := fun s => s == "c.js" || s == "a.js"
    fileInfo := fun path _ =>
      if path == "a.js" then "a.js" else if path == "b.js" then "c.js" else "" }

/-- The two-file set for the main-file counterexample. -/
def filesC6 : List ComponentMapFile :=
  [⟨"a.js", false, "a.js"⟩, ⟨"b.js", false, "b.js"⟩]

/-- A bare-placeholder main-file pattern. -/
def patC6 : Pattern := ⟨[.ph "P"]⟩

/-- Environment for the rootDir counterexample: two directories `d1`, `d2`
on disk, each holding one file. -/
def envC7 : Env :=
  { baseEnv with
    existsSync := fun s => s == "d1" || s == "d2"
    isDir := fun s => s == "d1" || s == "d2"
    glob := fun p => if p == "d1" then ["d1"] else if p == "d2" then ["d2"] else []
    globNodir := fun p =>
      if p == "d1/**" then ["d1/f.js"]
      else if p == "d2/**" then ["d2/g.js"] else [] }

/-- Request adding both directories with no explicit id. -/
def propsC7 : AddProps := { baseProps with componentPaths := ["d1", "d2"] }

/-- The component resolved from directory `d1` alone. -/
def compC7w : AddedComponent :=
  ⟨some ⟨none, "r", "d1", none⟩, [⟨"d1/f.js", false, "f.js"⟩], none, some "d1"⟩

/-- Environment for the collapse counterexample: `comp/foo.js` on disk; the
test DSL substitutes to `nomatch` for `comp/foo.js` and to `comp/foo.js`
for `comp/baz.js`. -/
def envC4 : Env :=
  { baseEnv with
    existsSync := fun s => s == "comp/foo.js"
    globIgnore := fun g _ => if g == "comp/foo.js" then ["comp/foo.js"] else []
    fileInfo := fun path _ =>
      if path == "comp/foo.js" then "nomatch"
      else if path == "comp/baz.js" then "comp/foo.js" else "" }

/-- Request collapsing both file paths under the explicit id `comp/thing`. -/
def propsC4 : AddProps :=
  { baseProps with
    componentPaths := ["comp/foo.js", "comp/baz.js"]
    id := some "comp/thing"
    tests := [⟨[.ph "X"]⟩] }

/-- Stats of the two file paths of the collapse counterexample. -/
def statsC4 : PathsStats := [("comp/foo.js", false), ("comp/baz.js", false)]

/-- First resolved group: `comp/foo.js` as a plain (non-test) file. -/
def gC4a : AddedComponent :=
  ⟨some ⟨none, "comp", "thing", none⟩, [⟨"comp/foo.js", false, "foo.js"⟩], none, none⟩

/-- Second resolved group: `comp/foo.js` flagged as a test plus
`comp/baz.js`. -/
def gC4b : AddedComponent :=
  ⟨some ⟨none, "comp", "thing", none⟩,
   [⟨"comp/foo.js", true, "foo.js"⟩, ⟨"comp/baz.js", false, "baz.js"⟩], none, none⟩

/-- The collapsed component of the counterexample. -/
def cC4 : AddedComponent :=
  ⟨some ⟨none, "comp", "thing", none⟩,
   [⟨"comp/foo.js", true, "foo.js"⟩, ⟨"comp/baz.js", false, "baz.js"⟩], none, none⟩

/-- Environment for the exclusion side of the collapse counterexample:
`p/a.js` and `p/b.js` on disk, the literal glob resolving `p/a.js`, and the
main-file placeholder substituting each file to itself. -/
def envC4x : Env :=
  { baseEnv with
    existsSync := fun s => s == "p/a.js" || s == "p/b.js"
    globIgnore := fun g _ => if g == "p/a.js" then ["p/a.js"] else []
    fileInfo := fun path _ => path }

/-- Request collapsing the two files under id `p/c`, with a placeholder
main-file pattern and an exclude pattern naming `p/a.js` — the first
group's main file. -/
def propsC4x : AddProps :=
  { baseProps with
    componentPaths := ["p/a.js", "p/b.js"]
    id := some "p/c"
    main := some ⟨[.ph "M"]⟩
    exclude := [⟨[.lit "p/a.js"]⟩] }

/-- Stats of the two file paths of the exclusion instance. -/
def statsC4x : PathsStats := [("p/a.js", false), ("p/b.js", false)]

/-- First resolved group of the exclusion instance: `p/a.js`, main file
`p/a.js`. -/
def gC4x1 : AddedComponent :=
  ⟨some ⟨none, "p", "c", none⟩, [⟨"p/a.js", false, "a.js"⟩], some "p/a.js", none⟩

/-- Second resolved group of the exclusion instance: `p/b.js`, main file
`p/b.js`. -/
def gC4x2 : AddedComponent :=
  ⟨some ⟨none, "p", "c", none⟩, [⟨"p/b.js", false, "b.js"⟩], some "p/b.js", none⟩

/-- The component the exclusion instance actually produces. -/
def cC4x : AddedComponent :=
  ⟨some ⟨none, "p", "c", none⟩, [⟨"p/b.js", false, "b.js"⟩], some "p/b.js", none⟩

/-! ## Helper lemmas -/

theorem validatePathsGo_first_missing (env : Env) (p : String) (rest : List String)
    (hp : env.existsSync p = false) :
    ∀ (pre : List String) (stats : PathsStats), (∀ q ∈ pre, env.existsSync q = true) →
      validatePathsGo env (pre ++ p :: rest) stats = .error (.pathsNotExist [p])
  | [], stats, _ => by
    simp [validatePathsGo, hp]
  | q :: pre, stats, hpre => by
    have hq : env.existsSync q = true := hpre q (by simp)
    simp only [List.cons_append, validatePathsGo, hq, Bool.not_true, Bool.false_eq_true,
      if_false]
    exact validatePathsGo_first_missing env p rest hp pre _
      (fun x hx => hpre x (by simp [hx]))

/-! ## C8 — path validation error payload -/

/-- C8 (counterexample): with paths `a` and `b` both absent from disk,
`validatePaths` throws `PathsNotExist` carrying only `[a]` — the first
offending path — not the full offending list `[a, b]` the claim states. -/
theorem validatePaths_full_list_cex :
    validatePaths baseEnv ["a", "b"] = .error (.pathsNotExist ["a"]) ∧
    AddError.pathsNotExist ["a"] ≠ AddError.pathsNotExist ["a", "b"] := by
  constructor
  · rfl
  · decide

/-- C8 (amended): for every input list in which at least one path does not
exist on disk, the Path Validator fails with `PathsNotExist` carrying a
singleton list holding the first non-existent path encountered, in input
order. -/
theorem validatePaths_first_missing (env : Env) (pre : List String) (p : String)
    (rest : List String) (hpre : ∀ q ∈ pre, env.existsSync q = true)
    (hp : env.existsSync p = false) :
    validatePaths env (pre ++ p :: rest) = .error (.pathsNotExist [p]) :=
  validatePathsGo_first_missing env p rest hp pre [] hpre

/-- Witness for C8's amended theorem: path `e` exists, path `m` does not;
validation of `[e, m]` fails carrying `[m]`. -/
theorem validatePaths_first_missing_witness :
    validatePaths envC8 (["e"] ++ "m" :: []) = .error (.pathsNotExist ["m"]) :=
  validatePaths_first_missing envC8 ["e"] "m" []
    (by intro q hq; simp at hq; subst hq; decide) (by decide)

/-! ## C5 — exclusion pass -/

/-- C5: in the Exclusion Pass, a component whose (normalized) main file is
among the files matched by the resolved exclude patterns loses its entire
file set (the emptied component is then discarded by the callers' non-empty
filters); a component whose main file is not matched loses exactly the
individually matched files. -/
theorem removeExcludedFiles_spec (env : Env) (il : List String)
    (exclude : List Pattern) (comps : List AddedComponent) (i : Nat)
    (c c' : AddedComponent) (hc : comps.get? i = some c)
    (hc' : (removeExcludedFiles env il exclude comps).get? i = some c') :
    ((∃ m, c.mainFile = some m ∧
        (getFilesAccordingToDsl env il
          (flatMapL (fun x => x.files.map (·.relativePath)) comps) exclude).contains
          (env.pathNormalizeToLinux m) = true) →
      c'.files = []) ∧
    ((∀ m, c.mainFile = some m →
        (getFilesAccordingToDsl env il
          (flatMapL (fun x => x.files.map (·.relativePath)) comps) exclude).contains
          (env.pathNormalizeToLinux m) = false) →
      c'.files = c.files.filter (fun k =>
        !((getFilesAccordingToDsl env il
            (flatMapL (fun x => x.files.map (·.relativePath)) comps) exclude).contains
            k.relativePath))) := by
  have hstep : c' = excludeStep env
      (getFilesAccordingToDsl env il
        (flatMapL (fun x => x.files.map (·.relativePath)) comps) exclude) c := by
    have hcg : comps[i]? = some c := by simpa [List.get?_eq_getElem?] using hc
    simp only [removeExcludedFiles, List.get?_eq_getElem?, List.getElem?_map, hcg,
      Option.map_some'] at hc'
    exact (Option.some_inj.mp hc').symm
  subst hstep
  constructor
  · rintro ⟨m, hm, hmem⟩
    have hmem' : env.pathNormalizeToLinux m ∈
        getFilesAccordingToDsl env il
          (flatMapL (fun x => x.files.map (·.relativePath)) comps) exclude := by
      simpa using hmem
    simp [excludeStep, hm, hmem']
  · intro hno
    match h : c.mainFile with
    | none => simp [excludeStep, h]
    | some m =>
      have hmem' : env.pathNormalizeToLinux m ∉
          getFilesAccordingToDsl env il
            (flatMapL (fun x => x.files.map (·.relativePath)) comps) exclude := by
        simpa using hno m h
      simp [excludeStep, h, hmem']

/-- Witness for C5: excluding a literal pattern matching the component's
main file empties its whole file set, `o.js` included. -/
theorem removeExcludedFiles_spec_witness :
    (removeExcludedFiles envC5 [] excludeC5 [compC5]).get? 0 =
      some { compC5 with files := [] } ∧
    ({ compC5 with files := [] } : AddedComponent).files = [] :=
  ⟨by decide,
   (removeExcludedFiles_spec envC5 [] excludeC5 [compC5] 0 compC5
      { compC5 with files := [] } (by decide) (by decide)).1 ⟨"m.js", rfl, by decide⟩⟩

/-! ## C9 — test-file fallback when the component-path glob is empty -/

/-- C9: when tests were supplied, an explicit identifier was supplied, and
globbing the component paths yields nothing at all, `add` does not fail with
`PathsNotExist` for the component paths: the stats used for resolution are
exactly those obtained by validating the globbed test patterns for
existence. -/
theorem resolveStats_test_fallback (env : Env) (props : AddProps) (il : List String)
    (ht : props.tests ≠ []) (hid : props.id.isSome = true)
    (hglob : flatMapL env.glob props.componentPaths = []) :
    resolveComponentPathsStats env props il =
      validatePaths env (flatMapL env.globDsl props.tests) := by
  have ht' : props.tests.isEmpty = false := by
    cases h : props.tests with
    | nil => exact absurd h ht
    | cons a l => rfl
  simp [resolveComponentPathsStats, hglob, ht', hid]

/-- Witness for C9: the concrete fallback run resolves the stats from the
globbed, existing test file `t.js`. -/
theorem resolveStats_test_fallback_witness :
    resolveComponentPathsStats envC9 propsC9 [] =
      validatePaths envC9 (flatMapL envC9.globDsl propsC9.tests) ∧
    resolveComponentPathsStats envC9 propsC9 [] = .ok [("t.js", false)] :=
  ⟨resolveStats_test_fallback envC9 propsC9 [] (by decide) (by decide) (by decide),
   by decide⟩

/-! ## C10 — test-matching input paths removed in multiple-components mode -/

/-- C10: in multiple-components mode (more than one resolved path, no
explicit identifier), `add` runs the multiple-components branch, and every
resolved input path that the test DSL patterns resolve to (after
`path.normalize`) is removed from the stats before per-path resolution, so
it never becomes its own component. -/
theorem addMulti_removes_test_paths (env : Env) (props : AddProps) (stats : PathsStats)
    (hmiss : env.getMissingTestFiles props.tests = [])
    (hres : resolveComponentPathsStats env props (getIgnoreList env) = .ok stats)
    (hmode : isMultipleComponents props stats = true) :
    addInner env props = addMulti env props (getIgnoreList env) stats ⟨env.bitMap, [], []⟩ ∧
    ∀ p, p ∈ stats.map (·.1) →
      p ∈ (if props.tests.isEmpty then []
           else getFilesAccordingToDsl env (getIgnoreList env) (stats.map (·.1))
             props.tests).map env.pathNormalize →
      p ∉ (multiModePaths env props (getIgnoreList env) stats).map (·.1) := by
  constructor
  · simp [addInner, hmiss, hres, hmode]
  · intro p _ hmem hcontra
    simp only [multiModePaths] at hcontra
    obtain ⟨e, hein, hfst⟩ := List.mem_map.mp hcontra
    have := (List.mem_filter.mp hein).2
    rw [hfst] at this
    simp only [Bool.not_eq_true'] at this
    have hpmem : ((if props.tests.isEmpty then []
        else getFilesAccordingToDsl env (getIgnoreList env) (stats.map (·.1))
          props.tests).map env.pathNormalize).contains p = true := by
      simpa using hmem
    rw [hpmem] at this
    exact Bool.true_eq_false.mp this

/-- Witness for C10: with input paths `a.js` and `a.spec.js` and a test
pattern resolving to `a.spec.js`, the spec-file path is removed and only
`a.js` remains a component path. -/
theorem addMulti_removes_test_paths_witness :
    "a.spec.js" ∉ (multiModePaths envC10 propsC10 (getIgnoreList envC10)
      [("a.js", false), ("a.spec.js", false)]).map (·.1) ∧
    (multiModePaths envC10 propsC10 (getIgnoreList envC10)
      [("a.js", false), ("a.spec.js", false)]).map (·.1) = ["a.js"] :=
  ⟨(addMulti_removes_test_paths envC10 propsC10 [("a.js", false), ("a.spec.js", false)]
      (by decide) (by decide) (by decide)).2 "a.spec.js" (by decide) (by decide),
   by decide⟩

/-! ## C2 — conflicting files warned and dropped -/

/-- C2 (counterexample): `x.js` is owned by the different identifier
`other/own` whose owner record is AUTHORED (not IMPORTED), yet — because
the record found for the component's own identifier is IMPORTED — the
operation fails with `IncorrectIdForImportedComponent` instead of dropping
the file into the warnings mapping. -/
theorem conflict_warning_claim_cex :
    BitMap.getComponentIdByPath bmC2 "x.js" = some "other/own" ∧
    (BitMap.getComponent bmC2 "other/own").map (·.origin) = some Origin.AUTHORED ∧
    "other/own" ≠ (BitId.parse "ns/comp").toString ∧
    addOrUpdateComponentInBitMap envC2 propsC2 stC2 compC2 =
      .error (.incorrectIdForImportedComponent "other/own" "ns/comp") := by
  refine ⟨by decide, by decide, by decide, by decide⟩

/-- C2 (amended): for every candidate file that is not an auto-generated
artifact, is owned by a different identifier, and for which the `isImported`
flag is false (neither the record found for the component's identifier nor
the file's owner has origin IMPORTED), the per-file pass drops the file
(`none`) and records its relative path under the conflicting owner's
identifier string, without error. -/
theorem processFile_conflict_warns (env : Env) (props : AddProps) (bm : BitMap)
    (found : Option BitMapRecord) (pid : BitId) (f : ComponentMapFile) (e : String)
    (hauto : env.isAutoGeneratedFile (env.pathJoin env.consumerPath f.relativePath) = false)
    (himp : isImportedFile bm found f = false)
    (howner : BitMap.getComponentIdByPath bm f.relativePath = some e)
    (hdiff : e ≠ pid.toString) :
    processFile env props bm found pid f = .ok (none, some (e, f.relativePath)) := by
  simp [processFile, hauto, himp, howner, hdiff]

/-- Witness for C2's amended theorem: with no imported record involved, the
conflicting file is dropped and warned under `other/own`. -/
theorem processFile_conflict_warns_witness :
    processFile envC2b baseProps bmC2b none (BitId.parse "ns/comp")
      ⟨"x.js", false, "x.js"⟩ = .ok (none, some ("other/own", "x.js")) :=
  processFile_conflict_warns envC2b baseProps bmC2b none (BitId.parse "ns/comp")
    ⟨"x.js", false, "x.js"⟩ "other/own" (by decide) (by decide) (by decide) (by decide)

/-! ## C1 — identifier rules for imported-origin files -/

/-- With no user-supplied id, the per-file pass can only succeed or throw
`MissingComponentIdForImportedComponent` (for this component's id). -/
theorem processFile_id_none_shape (env : Env) (props : AddProps) (bm : BitMap)
    (found : Option BitMapRecord) (pid : BitId) (f : ComponentMapFile)
    (hid : props.id = none) :
    (∃ v, processFile env props bm found pid f = .ok v) ∨
    processFile env props bm found pid f =
      .error (.missingComponentIdForImportedComponent pid.toStringWithoutVersion) := by
  simp only [processFile, hid]
  split
  · exact Or.inl ⟨_, rfl⟩
  · split
    · exact Or.inr rfl
    · split
      · exact Or.inl ⟨_, rfl⟩
      · exact Or.inl ⟨_, rfl⟩

/-- With a user-supplied id, the per-file pass can only succeed or throw
`IncorrectIdForImportedComponent`. -/
theorem processFile_id_some_shape (env : Env) (props : AddProps) (bm : BitMap)
    (found : Option BitMapRecord) (pid : BitId) (f : ComponentMapFile) (u : String)
    (hid : props.id = some u) :
    (∃ v, processFile env props bm found pid f = .ok v) ∨
    (∃ a b, processFile env props bm found pid f =
      .error (.incorrectIdForImportedComponent a b)) := by
  simp only [processFile, hid]
  split
  · exact Or.inl ⟨_, rfl⟩
  · split
    · split
      · exact Or.inr ⟨_, _, rfl⟩
      · split
        · split
          · exact Or.inl ⟨_, rfl⟩
          · exact Or.inl ⟨_, rfl⟩
        · exact Or.inl ⟨_, rfl⟩
    · split
      · exact Or.inl ⟨_, rfl⟩
      · exact Or.inl ⟨_, rfl⟩

/-- Trigger: an imported-flagged, non-generated file with no user id throws
`MissingComponentIdForImportedComponent`. -/
theorem processFile_imported_missing (env : Env) (props : AddProps) (bm : BitMap)
    (found : Option BitMapRecord) (pid : BitId) (f : ComponentMapFile)
    (hauto : env.isAutoGeneratedFile (env.pathJoin env.consumerPath f.relativePath) = false)
    (himp : isImportedFile bm found f = true) (hid : props.id = none) :
    processFile env props bm found pid f =
      .error (.missingComponentIdForImportedComponent pid.toStringWithoutVersion) := by
  simp [processFile, hauto, himp, hid]

/-- Trigger: an imported-flagged, non-generated file owned by a different
identifier throws `IncorrectIdForImportedComponent` when an id was
supplied. -/
theorem processFile_imported_incorrect (env : Env) (props : AddProps) (bm : BitMap)
    (found : Option BitMapRecord) (pid : BitId) (f : ComponentMapFile) (u e : String)
    (hauto : env.isAutoGeneratedFile (env.pathJoin env.consumerPath f.relativePath) = false)
    (himp : isImportedFile bm found f = true) (hid : props.id = some u)
    (howner : BitMap.getComponentIdByPath bm f.relativePath = some e)
    (hdiff : e ≠ pid.toString) :
    processFile env props bm found pid f =
      .error (.incorrectIdForImportedComponent (BitId.parse e).toStringWithoutVersion u) := by
  simp [processFile, hauto, himp, hid, howner, hdiff]

/-- An error raised on any file of the list aborts the whole per-file pass
with an error of the same shape. -/
theorem processFiles_error_of_mem (env : Env) (props : AddProps) (bm : BitMap)
    (found : Option BitMapRecord) (pid : BitId) (P : AddError → Prop)
    (hall : ∀ g, (∃ v, processFile env props bm found pid g = .ok v) ∨
      (∃ e, processFile env props bm found pid g = .error e ∧ P e)) :
    ∀ (files : List ComponentMapFile),
      (∃ f ∈ files, ∀ v, processFile env props bm found pid f ≠ .ok v) →
      ∀ w, ∃ e, processFiles env props bm found pid files w = .error e ∧ P e
  | [], h, w => by simp at h
  | g :: rest, h, w => by
    rcases hall g with ⟨v, hv⟩ | ⟨e, he, hPe⟩
    · obtain ⟨f, hf, herr⟩ := h
      have hfr : f ∈ rest := by
        rcases List.mem_cons.mp hf with h1 | h1
        · exact absurd (h1 ▸ hv) (herr v)
        · exact h1
      obtain ⟨keep, warn⟩ := v
      cases warn with
      | none =>
        obtain ⟨e, he2, hPe⟩ := processFiles_error_of_mem env props bm found pid P hall rest
          ⟨f, hfr, herr⟩ w
        refine ⟨e, ?_, hPe⟩
        simp only [processFiles, hv]
        rw [he2]
      | some ip =>
        obtain ⟨i, p⟩ := ip
        obtain ⟨e, he2, hPe⟩ := processFiles_error_of_mem env props bm found pid P hall rest
          ⟨f, hfr, herr⟩ (pushWarning w i p)
        refine ⟨e, ?_, hPe⟩
        simp only [processFiles, hv]
        rw [he2]
    · exact ⟨e, by simp only [processFiles, he], hPe⟩

/-- C1: for a candidate file whose `isImported` flag is true (the record
found for the component's identifier has origin IMPORTED, or the file's
owner has origin IMPORTED) and which is not an auto-generated artifact, the
reconciliation fails with `MissingComponentIdForImportedComponent` when no
explicit identifier was supplied, and with `IncorrectIdForImportedComponent`
when the file's owner identifier differs from the component's identifier. -/
theorem addOrUpdate_imported_id_errors (env : Env) (props : AddProps) (st : AddState)
    (comp : AddedComponent) (pid : BitId) (f : ComponentMapFile)
    (hcid : comp.componentId = some pid)
    (hf : f ∈ comp.files)
    (hauto : env.isAutoGeneratedFile (env.pathJoin env.consumerPath f.relativePath) = false)
    (himp : isImportedFile st.bitMap (BitMap.getComponentLenient st.bitMap pid) f = true) :
    (props.id = none →
      addOrUpdateComponentInBitMap env props st comp =
        .error (.missingComponentIdForImportedComponent pid.toStringWithoutVersion)) ∧
    (∀ u e, props.id = some u →
      BitMap.getComponentIdByPath st.bitMap f.relativePath = some e →
      e ≠ pid.toString →
      ∃ a b, addOrUpdateComponentInBitMap env props st comp =
        .error (.incorrectIdForImportedComponent a b)) := by
  constructor
  · intro hid
    have htrig := processFile_imported_missing env props st.bitMap
      (BitMap.getComponentLenient st.bitMap pid) pid f hauto himp hid
    obtain ⟨e, he, hPe⟩ := processFiles_error_of_mem env props st.bitMap
      (BitMap.getComponentLenient st.bitMap pid) pid
      (fun e => e = .missingComponentIdForImportedComponent pid.toStringWithoutVersion)
      (fun g => by
        rcases processFile_id_none_shape env props st.bitMap
            (BitMap.getComponentLenient st.bitMap pid) pid g hid with ⟨v, hv⟩ | h
        · exact Or.inl ⟨v, hv⟩
        · exact Or.inr ⟨_, h, rfl⟩)
      comp.files ⟨f, hf, fun v hv => by rw [htrig] at hv; exact Except.noConfusion hv⟩
      st.warnings
    subst hPe
    simp only [addOrUpdateComponentInBitMap, hcid]
    rw [he]
  · intro u e hid howner hdiff
    have htrig := processFile_imported_incorrect env props st.bitMap
      (BitMap.getComponentLenient st.bitMap pid) pid f u e hauto himp hid howner hdiff
    obtain ⟨e2, he2, a, b, hab⟩ := processFiles_error_of_mem env props st.bitMap
      (BitMap.getComponentLenient st.bitMap pid) pid
      (fun e2 => ∃ a b, e2 = .incorrectIdForImportedComponent a b)
      (fun g => by
        rcases processFile_id_some_shape env props st.bitMap
            (BitMap.getComponentLenient st.bitMap pid) pid g u hid with ⟨v, hv⟩ | ⟨a, b, h⟩
        · exact Or.inl ⟨v, hv⟩
        · exact Or.inr ⟨_, h, a, b, rfl⟩)
      comp.files ⟨f, hf, fun v hv => by rw [htrig] at hv; exact Except.noConfusion hv⟩
      st.warnings
    refine ⟨a, b, ?_⟩
    simp only [addOrUpdateComponentInBitMap, hcid]
    rw [he2, hab]

/-- Witness for C1: re-adding the imported file `x.js` with no id fails with
`MissingComponentIdForImportedComponent`, and with the wrong id `bad/id`
would exercise the second rule via its owner check. -/
theorem addOrUpdate_imported_id_errors_witness :
    addOrUpdateComponentInBitMap envC1 baseProps stC1 compC1 =
      .error (.missingComponentIdForImportedComponent "ns/comp") :=
  (addOrUpdate_imported_id_errors envC1 baseProps stC1 compC1 (BitId.parse "ns/comp")
    ⟨"x.js", false, "x.js"⟩ rfl (by decide) (by decide) (by decide)).1 rfl

/-! ## C3 — the index is persisted exactly once, only on success -/

/-- The upsert touches only the in-memory index, never storage. -/
theorem addToBitMap_writes (props : AddProps) (st : AddState) (componentId : BitId)
    (files : List ComponentMapFile) (mainFile : Option String) (rootDir : Option String) :
    (addToBitMap props st componentId files mainFile rootDir).2.writes = st.writes := rfl

/-- Reconciling one component never flushes to storage. -/
theorem addOrUpdate_writes (env : Env) (props : AddProps) (st : AddState)
    (comp : AddedComponent) (r : Option AddResult) (st' : AddState)
    (h : addOrUpdateComponentInBitMap env props st comp = .ok (r, st')) :
    st'.writes = st.writes := by
  simp only [addOrUpdateComponentInBitMap] at h
  split at h
  · exact Except.noConfusion h
  · split at h
    · exact Except.noConfusion h
    · split at h
      · simp only [Except.ok.injEq, Prod.mk.injEq] at h
        obtain ⟨-, rfl⟩ := h
        rfl
      · simp only [Except.ok.injEq, Prod.mk.injEq] at h
        obtain ⟨-, rfl⟩ := h
        rfl

/-- The reconciliation loop never flushes to storage. -/
theorem reconcileAll_writes (env : Env) (props : AddProps) :
    ∀ (cs : List AddedComponent) (st : AddState) (acc res : List AddResult)
      (st' : AddState), reconcileAll env props cs st acc = .ok (res, st') →
      st'.writes = st.writes
  | [], st, acc, res, st', h => by
    simp only [reconcileAll, Except.ok.injEq, Prod.mk.injEq] at h
    obtain ⟨-, rfl⟩ := h
    rfl
  | c :: cs, st, acc, res, st', h => by
    simp only [reconcileAll] at h
    split at h
    · exact reconcileAll_writes env props cs st acc res st' h
    · split at h
      · exact Except.noConfusion h
      · next r1 st1 heq =>
        exact (reconcileAll_writes env props cs st1 _ res st' h).trans
          (addOrUpdate_writes env props st c (some r1) st1 heq)
      · next st1 heq =>
        exact (reconcileAll_writes env props cs st1 _ res st' h).trans
          (addOrUpdate_writes env props st c none st1 heq)

/-- The multiple-components branch never flushes to storage. -/
theorem addMulti_writes (env : Env) (props : AddProps) (il : List String)
    (stats : PathsStats) (st : AddState) (res : List AddResult) (st' : AddState)
    (h : addMulti env props il stats st = .ok (res, st')) : st'.writes = st.writes := by
  simp only [addMulti] at h
  split at h
  · exact Except.noConfusion h
  · next added heq =>
    split at h
    · exact Except.noConfusion h
    · exact reconcileAll_writes env props added st [] res st' h

/-- The single-component branch never flushes to storage. -/
theorem addSingle_writes (env : Env) (props : AddProps) (il : List String)
    (stats : PathsStats) (st : AddState) (res : List AddResult) (st' : AddState)
    (h : addSingle env props il stats st = .ok (res, st')) : st'.writes = st.writes := by
  simp only [addSingle] at h
  split at h
  · exact Except.noConfusion h
  · next addedOne heq => exact reconcileAll_writes env props [addedOne] st [] res st' h

/-- Everything before the final flush leaves storage untouched. -/
theorem addInner_ok_writes (env : Env) (props : AddProps) (res : List AddResult)
    (st' : AddState) (h : addInner env props = .ok (res, st')) : st'.writes = [] := by
  simp only [addInner] at h
  split at h
  · exact Except.noConfusion h
  · split at h
    · exact Except.noConfusion h
    · next stats heq =>
      split at h
      · exact addMulti_writes env props _ stats _ res st' h
      · exact addSingle_writes env props _ stats _ res st' h

/-- C3: one invocation of `add` flushes the persistent index exactly once —
after all components have been reconciled, the single write holding the
final in-memory index — while a run aborted by any thrown error performs no
write at all. -/
theorem add_persists_exactly_once (env : Env) (props : AddProps) :
    (match addInner env props with
     | .ok (_, st) => (add env props).2 = [st.bitMap] ∧ (add env props).1.isOk = true
     | .error e => (add env props).1 = .error e ∧ (add env props).2 = []) := by
  cases h : addInner env props with
  | error e => simp [add, h]
  | ok p =>
    obtain ⟨res, st⟩ := p
    have hw := addInner_ok_writes env props res st h
    exact ⟨by simp [add, h, AddState.write, hw], by simp [add, h, Except.isOk, Except.toBool]⟩

/-! ## C6 — main-file DSL adoption -/

/-- Formatting a pattern already holding a concrete path returns that path
(the JS `format` of a placeholder-free string). -/
theorem Pattern.format_ofLit (s : String) (info : String → String) :
    (Pattern.ofLit s).format info = s := by
  simp [Pattern.format, Pattern.ofLit]

/-- Once the pattern variable holds an adopted path present in the file
array, an iteration leaves the state unchanged. -/
theorem mainFileStep_adopted (env : Env) (p : String) (fs : List ComponentMapFile)
    (r : String) (hp : (fs.find? (fun f => f.relativePath == p)).isSome = true) :
    mainFileStep env (Pattern.ofLit p, fs) r = (Pattern.ofLit p, fs) := by
  simp only [mainFileStep, Pattern.format_ofLit]
  obtain ⟨ff, hff⟩ := Option.isSome_iff_exists.mp hp
  rw [hff]
  have hffp : ff.relativePath = p := by simpa using List.find?_some hff
  simp [hffp]

/-- Once adopted, the rest of the loop leaves the state unchanged. -/
theorem mainFileFold_adopted (env : Env) (p : String) (fs : List ComponentMapFile)
    (hp : (fs.find? (fun f => f.relativePath == p)).isSome = true) :
    ∀ rs : List String,
      rs.foldl (mainFileStep env) (Pattern.ofLit p, fs) = (Pattern.ofLit p, fs)
  | [] => rfl
  | r :: rs => by
    rw [List.foldl_cons, mainFileStep_adopted env p fs r hp]
    exact mainFileFold_adopted env p fs hp rs

/-- Iterations whose substitution neither names a file in the array nor an
on-disk file leave the state unchanged. -/
theorem mainFileFold_skip (env : Env) (m0 : Pattern) (fs : List ComponentMapFile) :
    ∀ pre : List String,
      (∀ q ∈ pre,
        fs.find? (fun f => f.relativePath == m0.format (env.fileInfo q)) = none ∧
        env.existsSync (m0.format (env.fileInfo q)) = false) →
      pre.foldl (mainFileStep env) (m0, fs) = (m0, fs)
  | [], _ => rfl
  | q :: pre, hpre => by
    have hq := hpre q (by simp)
    have hstep : mainFileStep env (m0, fs) q = (m0, fs) := by
      simp only [mainFileStep, hq.1, hq.2, Bool.false_eq_true, if_false]
    rw [List.foldl_cons, hstep]
    exact mainFileFold_skip env m0 fs pre (fun x hx => hpre x (by simp [hx]))

/-- C6 (amended): substituting the pattern against the files in order, with
all earlier substitutions missing (not in the set, not on disk), the first
substitution naming a file already in the set is adopted as the main file
with the file set unchanged, and the first substitution naming an on-disk
file not in the set is appended and adopted; in both cases the pattern
variable is overwritten by the adopted concrete path, so the rest of the
loop neither overrides the main file nor appends any further file. -/
theorem mainFileLoop_first_hit (env : Env) (m0 : Pattern) (files : List ComponentMapFile)
    (pre post : List String) (r : String)
    (hsplit : files.map (·.relativePath) = pre ++ r :: post)
    (hpre : ∀ q ∈ pre,
      files.find? (fun f => f.relativePath == m0.format (env.fileInfo q)) = none ∧
      env.existsSync (m0.format (env.fileInfo q)) = false) :
    (∀ ff, files.find? (fun f => f.relativePath == m0.format (env.fileInfo r)) = some ff →
      mainFileLoop env m0 files = (Pattern.ofLit ff.relativePath, files)) ∧
    (files.find? (fun f => f.relativePath == m0.format (env.fileInfo r)) = none →
      env.existsSync (m0.format (env.fileInfo r)) = true →
      mainFileLoop env m0 files =
        (Pattern.ofLit (m0.format (env.fileInfo r)),
         files ++ [⟨m0.format (env.fileInfo r), false,
           env.basename (m0.format (env.fileInfo r))⟩])) := by
  constructor
  · intro ff hff
    have hffp : ff.relativePath = m0.format (env.fileInfo r) := by
      simpa using List.find?_some hff
    unfold mainFileLoop
    rw [hsplit, List.foldl_append, mainFileFold_skip env m0 files pre hpre,
      List.foldl_cons]
    have hstep : mainFileStep env (m0, files) r = (Pattern.ofLit ff.relativePath, files) := by
      simp only [mainFileStep, hff]
    rw [hstep]
    refine mainFileFold_adopted env ff.relativePath files ?_ post
    rw [← hffp] at hff
    simp [hff]
  · intro hnone hex
    unfold mainFileLoop
    rw [hsplit, List.foldl_append, mainFileFold_skip env m0 files pre hpre,
      List.foldl_cons]
    have hstep : mainFileStep env (m0, files) r =
        (Pattern.ofLit (m0.format (env.fileInfo r)),
         files ++ [⟨m0.format (env.fileInfo r), false,
           env.basename (m0.format (env.fileInfo r))⟩]) := by
      simp only [mainFileStep, hnone, hex, if_true]
    rw [hstep]
    refine mainFileFold_adopted env _ _ ?_ post
    rw [List.find?_isSome]
    refine ⟨⟨m0.format (env.fileInfo r), false,
      env.basename (m0.format (env.fileInfo r))⟩, by simp, by simp⟩

/-- C6 (counterexample): the substitution for the second file names `c.js`,
which exists on disk and is not in the set; the claim says it is still
appended as a side effect, but — the pattern having been overwritten by the
adoption of `a.js` at the first file — the run returns the file set
unchanged (no `c.js`) with main file `a.js`. -/
theorem mainfile_append_claim_cex :
    patC6.format (envC6.fileInfo "b.js") = "c.js" ∧
    envC6.existsSync "c.js" = true ∧
    (filesC6.map (·.relativePath)).contains "c.js" = false ∧
    addMainFileToFiles envC6 (some patC6) filesC6 = (filesC6, some "a.js") :=
  ⟨by decide, by decide, by decide, by decide⟩

/-- Witness for C6's amended theorem: the first substitution names `a.js`,
already in the set, which is adopted with the file set unchanged. -/
theorem mainFileLoop_first_hit_witness :
    mainFileLoop envC6 patC6 filesC6 = (Pattern.ofLit "a.js", filesC6) :=
  (mainFileLoop_first_hit envC6 patC6 filesC6 [] ["b.js"] "a.js" (by decide)
    (by intro q hq; exact absurd hq (List.not_mem_nil q))).1
    ⟨"a.js", false, "a.js"⟩ (by decide)

/-! ## C7 — when rootDir is recorded -/

/-- A directory resolved with a one-key stats object records its relative
path as `rootDir`. -/
theorem resolveOnePath_rootDir_dir (env : Env) (props : AddProps) (il : List String)
    (p : String) (fid : Option BitId) (c : AddedComponent) (fid' : Option BitId)
    (h : resolveOnePath env props il 1 p true fid = .ok (c, fid')) :
    c.rootDir = some (env.getPathRelativeToConsumer p) := by
  simp only [resolveOnePath, if_true] at h
  split at h
  · exact Except.noConfusion h
  · split at h
    · exact Except.noConfusion h
    · simp only [Except.ok.injEq, Prod.mk.injEq] at h
      obtain ⟨h1, -⟩ := h
      rw [← h1]
      rfl

/-- A file never records `rootDir`. -/
theorem resolveOnePath_rootDir_file (env : Env) (props : AddProps) (il : List String)
    (totalLen : Nat) (p : String) (fid : Option BitId) (c : AddedComponent)
    (fid' : Option BitId)
    (h : resolveOnePath env props il totalLen p false fid = .ok (c, fid')) :
    c.rootDir = none := by
  simp only [resolveOnePath, Bool.false_eq_true, if_false] at h
  split at h
  · exact Except.noConfusion h
  · simp only [Except.ok.injEq, Prod.mk.injEq] at h
    obtain ⟨h1, -⟩ := h
    rw [← h1]

/-- With more than one key in the stats object, no resolution records
`rootDir`. -/
theorem resolveOnePath_rootDir_ne_one (env : Env) (props : AddProps) (il : List String)
    (totalLen : Nat) (p : String) (d : Bool) (fid : Option BitId) (c : AddedComponent)
    (fid' : Option BitId) (hlen : (totalLen == 1) = false)
    (h : resolveOnePath env props il totalLen p d fid = .ok (c, fid')) :
    c.rootDir = none := by
  cases d with
  | false => exact resolveOnePath_rootDir_file env props il totalLen p fid c fid' h
  | true =>
    simp only [resolveOnePath, if_true] at h
    split at h
    · exact Except.noConfusion h
    · split at h
      · exact Except.noConfusion h
      · simp only [Except.ok.injEq, Prod.mk.injEq] at h
        obtain ⟨h1, -⟩ := h
        rw [← h1]
        simp [hlen]

/-- Group-loop version of the previous lemma. -/
theorem resolveGroups_rootDir_none (env : Env) (props : AddProps) (il : List String)
    (totalLen : Nat) (hlen : (totalLen == 1) = false) :
    ∀ (l : List (String × Bool)) (fid : Option BitId) (cs : List AddedComponent)
      (fid' : Option BitId),
      resolveGroups env props il totalLen l fid = .ok (cs, fid') →
      ∀ c ∈ cs, c.rootDir = none
  | [], fid, cs, fid', h => by
    simp only [resolveGroups, Except.ok.injEq, Prod.mk.injEq] at h
    obtain ⟨h1, -⟩ := h
    subst h1
    intro c hc
    exact absurd hc (List.not_mem_nil c)
  | (p, d) :: rest, fid, cs, fid', h => by
    simp only [resolveGroups] at h
    split at h
    · exact Except.noConfusion h
    · next c1 fid1 heq =>
      split at h
      · exact Except.noConfusion h
      · next cs2 fid2 heq2 =>
        simp only [Except.ok.injEq, Prod.mk.injEq] at h
        obtain ⟨h1, -⟩ := h
        subst h1
        intro c hc
        rcases List.mem_cons.mp hc with rfl | hc2
        · exact resolveOnePath_rootDir_ne_one env props il totalLen p d fid c fid1 hlen heq
        · exact resolveGroups_rootDir_none env props il totalLen hlen rest fid1 cs2 fid2
            heq2 c hc2

/-- Resolving a singleton stats object yields exactly one group. -/
theorem resolveGroups_singleton (env : Env) (props : AddProps) (il : List String)
    (n : Nat) (p : String) (d : Bool) (fid : Option BitId) (cs : List AddedComponent)
    (fid' : Option BitId)
    (h : resolveGroups env props il n [(p, d)] fid = .ok (cs, fid')) :
    ∃ c1, cs = [c1] ∧ resolveOnePath env props il n p d fid = .ok (c1, fid') := by
  simp only [resolveGroups] at h
  split at h
  · exact Except.noConfusion h
  · next c1 fid1 heq =>
    simp only [Except.ok.injEq, Prod.mk.injEq] at h
    obtain ⟨h1, h2⟩ := h
    subst h1
    subst h2
    exact ⟨c1, rfl, heq⟩

/-- The exclusion pass does not touch `rootDir`. -/
theorem excludeStep_rootDir (env : Env) (res : List String) (c : AddedComponent) :
    (excludeStep env res c).rootDir = c.rootDir := by
  simp only [excludeStep]
  split <;> rfl

/-- If every surviving group carries root directory `v`, then — unless the
assembled component is the empty placeholder — so does the assembled
component. -/
theorem assembleComponents_rootDir (componentId : Option BitId) (v : Option String) :
    ∀ flt : List AddedComponent, (∀ g ∈ flt, g.rootDir = v) →
      (assembleComponents componentId flt).files ≠ [] →
      (assembleComponents componentId flt).rootDir = v
  | [], _, hfiles => absurd rfl hfiles
  | [c1], hall, _ => hall c1 (by simp) 
  | c1 :: c2 :: cs, hall, _ => hall c1 (by simp)

/-- C7 (amended): `rootDir` is recorded exactly when the component's own
resolution saw a single stats key naming a directory — the sole input path
in single-component mode, or each individual directory path in
multiple-components mode; a file input, or a collapse of several stats
keys, never records `rootDir`. -/
theorem addOneComponent_rootDir (env : Env) (props : AddProps) (il : List String)
    (stats : PathsStats) (c : AddedComponent)
    (hok : addOneComponent env props il stats = .ok c) :
    (∀ p, stats = [(p, true)] → c.files ≠ [] →
      c.rootDir = some (env.getPathRelativeToConsumer p)) ∧
    (∀ p, stats = [(p, false)] → c.files ≠ [] → c.rootDir = none) ∧
    (2 ≤ stats.length → c.files ≠ [] → c.rootDir = none) := by
  simp only [addOneComponent] at hok
  split at hok
  · exact Except.noConfusion hok
  · next fid0 heq0 =>
    split at hok
    · exact Except.noConfusion hok
    · next groups0 fidF heq1 =>
      simp only [Except.ok.injEq] at hok
      have hgroups1 : ∀ (v : Option String), (∀ g ∈ groups0, g.rootDir = v) →
          ∀ g ∈ (if props.exclude.isEmpty then groups0
            else removeExcludedFiles env il props.exclude groups0), g.rootDir = v := by
        intro v hall g hg
        by_cases hce : props.exclude.isEmpty
        · rw [if_pos hce] at hg
          exact hall g hg
        · rw [if_neg hce] at hg
          simp only [removeExcludedFiles] at hg
          obtain ⟨g0, hg0, rfl⟩ := List.mem_map.mp hg
          rw [excludeStep_rootDir]
          exact hall g0 hg0
      have main : ∀ (v : Option String), (∀ g ∈ groups0, g.rootDir = v) →
          c.files ≠ [] → c.rootDir = v := by
        intro v hall hfiles
        rw [← hok]
        refine assembleComponents_rootDir fidF v _ ?_ (hok ▸ hfiles)
        intro g hg
        exact hgroups1 v hall g (List.mem_filter.mp hg).1
      refine ⟨?_, ?_, ?_⟩
      · intro p hstat hfiles
        subst hstat
        obtain ⟨c1, rfl, honep⟩ := resolveGroups_singleton env props il _ p true fid0
          groups0 fidF heq1
        refine main (some (env.getPathRelativeToConsumer p)) ?_ hfiles
        intro g hg
        rcases List.mem_cons.mp hg with rfl | hg2
        · exact resolveOnePath_rootDir_dir env props il p fid0 g fidF honep
        · exact absurd hg2 (List.not_mem_nil g)
      · intro p hstat hfiles
        subst hstat
        obtain ⟨c1, rfl, honep⟩ := resolveGroups_singleton env props il _ p false fid0
          groups0 fidF heq1
        refine main none ?_ hfiles
        intro g hg
        rcases List.mem_cons.mp hg with rfl | hg2
        · exact resolveOnePath_rootDir_file env props il _ p fid0 g fidF honep
        · exact absurd hg2 (List.not_mem_nil g)
      · intro hlen2 hfiles
        have hlenb : (stats.length == 1) = false := by
          simp only [beq_eq_false_iff_ne]
          omega
        exact main none
          (resolveGroups_rootDir_none env props il stats.length hlenb stats fid0
            groups0 fidF heq1) hfiles

/-- C7 (counterexample): an invocation with two directory input paths and no
explicit id runs in multiple-components mode, and both stored records carry
`rootDir` — contradicting "in every other case (multiple input paths …)
rootDir is absent". -/
theorem rootDir_claim_cex :
    propsC7.componentPaths.length = 2 ∧ propsC7.id = none ∧
    (addInner envC7 propsC7).map
      (fun r => ((BitMap.getComponent r.2.bitMap "r/d1").map (·.rootDir),
                 (BitMap.getComponent r.2.bitMap "r/d2").map (·.rootDir))) =
      .ok (some (some "d1"), some (some "d2")) :=
  ⟨rfl, rfl, by decide⟩

/-- Witness for C7's amended theorem: a singleton directory stats object
records the directory's relative path as `rootDir`. -/
theorem addOneComponent_rootDir_witness :
    addOneComponent envC7 propsC7 [] [("d1", true)] = .ok compC7w ∧
    compC7w.rootDir = some "d1" :=
  ⟨by decide,
   (addOneComponent_rootDir envC7 propsC7 [] [("d1", true)] compC7w (by decide)).1
     "d1" rfl (by decide)⟩

/-! ## C4 — mode decision and the collapse merge -/

/-- Folding one group with the first-truthy-wins merge makes `test` the OR
of the group's flags. -/
theorem foldl_mergeTwoFiles_test (gs : List ComponentMapFile) :
    ∀ g : ComponentMapFile,
      (gs.foldl mergeTwoFiles g).test = (g.test || gs.any (·.test)) := by
  induction gs with
  | nil => intro g; simp
  | cons b bs ih =>
    intro g
    rw [List.foldl_cons, ih (mergeTwoFiles g b)]
    simp [mergeTwoFiles, Bool.or_assoc]

/-- Folding a group whose members all share one relative path keeps that
path. -/
theorem foldl_mergeTwoFiles_path (key : String) (gs : List ComponentMapFile) :
    ∀ g : ComponentMapFile, g.relativePath = key → (∀ x ∈ gs, x.relativePath = key) →
      (gs.foldl mergeTwoFiles g).relativePath = key := by
  induction gs with
  | nil => intro g hg _; exact hg
  | cons b bs ih =>
    intro g hg hgs
    rw [List.foldl_cons]
    refine ih (mergeTwoFiles g b) ?_ (fun x hx => hgs x (by simp [hx]))
    have hb : b.relativePath = key := hgs b (by simp)
    simp only [mergeTwoFiles]
    rw [hg, hb]
    split <;> rfl

/-- Any-over-filter fusion for file lists. -/
theorem any_filter_files (L : List ComponentMapFile)
    (p q : ComponentMapFile → Bool) :
    (L.filter p).any q = L.any (fun x => p x && q x) := by
  induction L with
  | nil => rfl
  | cons b bs ih =>
    by_cases hb : p b = true
    · simp [List.filter_cons, hb, ih]
    · simp only [Bool.not_eq_true] at hb
      simp [List.filter_cons, hb, ih]

/-- In the collapsed file set, each entry's `test` flag is the OR of the
flags of all concatenated entries sharing its relative path — not the flag
of the first entry. -/
theorem mergeFilesByPath_test (L : List ComponentMapFile) (f : ComponentMapFile)
    (hf : f ∈ mergeFilesByPath L) :
    f.test = L.any (fun x => x.relativePath == f.relativePath && x.test) := by
  simp only [mergeFilesByPath] at hf
  obtain ⟨key, hkey, hfe⟩ := List.mem_map.mp hf
  match hflt : L.filter (fun x => x.relativePath == key) with
  | [] =>
    rw [hflt] at hfe
    rw [← hfe]
    have : (L.filter (fun x => x.relativePath == key)).any (·.test) =
        L.any (fun x => x.relativePath == key && x.test) := any_filter_files L _ _
    rw [hflt] at this
    simpa using this.symm
  | g :: gs =>
    rw [hflt] at hfe
    have hmem : ∀ x ∈ g :: gs, x.relativePath = key := by
      intro x hx
      have := List.of_mem_filter (hflt ▸ hx)
      simpa using this
    have hpath : f.relativePath = key := by
      rw [← hfe]
      exact foldl_mergeTwoFiles_path key gs g (hmem g (by simp))
        (fun x hx => hmem x (by simp [hx]))
    have htest : f.test = (g.test || gs.any (·.test)) := by
      rw [← hfe]
      exact foldl_mergeTwoFiles_test gs g
    have hany : (L.filter (fun x => x.relativePath == key)).any (·.test) =
        L.any (fun x => x.relativePath == key && x.test) := any_filter_files L _ _
    rw [hflt] at hany
    rw [htest, hpath]
    simpa using hany

/-- Each element of the path list handed to the multiple-components branch
is resolved by its own `addOneComponent` call on a singleton stats
object. -/
theorem resolveEachPath_get (env : Env) (props : AddProps) (il : List String) :
    ∀ (l : List (String × Bool)) (cs : List AddedComponent),
      resolveEachPath env props il l = .ok cs →
      ∀ (i : Nat) (e : String × Bool), l.get? i = some e →
        ∃ c, cs.get? i = some c ∧ addOneComponent env props il [e] = .ok c
  | [], cs, h, i, e, he => Option.noConfusion he
  | x :: rest, cs, h, i, e, he => by
    simp only [resolveEachPath] at h
    split at h
    · exact Except.noConfusion h
    · next c0 heq0 =>
      split at h
      · exact Except.noConfusion h
      · next cs0 heq1 =>
        simp only [Except.ok.injEq] at h
        subst h
        match i, he with
        | 0, he =>
          have hex : x = e := by simpa using he
          subst hex
          exact ⟨c0, rfl, heq0⟩
        | Nat.succ i, he =>
          obtain ⟨c, hc, hone⟩ := resolveEachPath_get env props il rest cs0 heq1 i e
            (by simpa using he)
          exact ⟨c, by simpa using hc, hone⟩

/-- C4 (amended): with more than one resolved path and no explicit id,
`add` dispatches to the multiple-components branch, in which each path
surviving the test-pattern removal is resolved by its own singleton
`addOneComponent` call; otherwise `add` dispatches to the single-component
branch, whose collapse drops the groups the exclusion pass emptied and
returns the single surviving group as-is, or — with several surviving
groups — merges their file sets by relative path field-wise (first truthy
value per field wins, so an entry's `test` flag is the OR of the flags of
all surviving entries sharing its path) with `mainFile`/`rootDir` from the
first surviving group. -/
theorem addOneComponent_collapse (env : Env) (props : AddProps) (il : List String)
    (stats : PathsStats) (c : AddedComponent) (fid0 : Option BitId)
    (groups0 : List AddedComponent) (fidF : Option BitId)
    (hok : addOneComponent env props il stats = .ok c)
    (hid : resolveInitialId env props = .ok fid0)
    (hgroups : resolveGroups env props il stats.length stats fid0 = .ok (groups0, fidF)) :
    (∀ g, ((if props.exclude.isEmpty then groups0
        else removeExcludedFiles env il props.exclude groups0).filter
          (fun x => !x.files.isEmpty)) = [g] → c = g) ∧
    (∀ g g2 gs, ((if props.exclude.isEmpty then groups0
        else removeExcludedFiles env il props.exclude groups0).filter
          (fun x => !x.files.isEmpty)) = g :: g2 :: gs →
      c.files = mergeFilesByPath (flatMapL (·.files) (g :: g2 :: gs)) ∧
      c.mainFile = g.mainFile ∧ c.rootDir = g.rootDir ∧
      ∀ f ∈ c.files, f.test = (flatMapL (·.files) (g :: g2 :: gs)).any
        (fun x => x.relativePath == f.relativePath && x.test)) ∧
    (env.getMissingTestFiles props.tests = [] →
     resolveComponentPathsStats env props (getIgnoreList env) = .ok stats →
     isMultipleComponents props stats = false →
     addInner env props = addSingle env props (getIgnoreList env) stats
       ⟨env.bitMap, [], []⟩) ∧
    (env.getMissingTestFiles props.tests = [] →
     resolveComponentPathsStats env props (getIgnoreList env) = .ok stats →
     isMultipleComponents props stats = true →
     addInner env props = addMulti env props (getIgnoreList env) stats
       ⟨env.bitMap, [], []⟩) ∧
    (∀ cs, resolveEachPath env props il (multiModePaths env props il stats) = .ok cs →
      ∀ (i : Nat) (e : String × Bool),
        (multiModePaths env props il stats).get? i = some e →
        ∃ c', cs.get? i = some c' ∧ addOneComponent env props il [e] = .ok c') := by
  have hassemble : c = assembleComponents fidF
      ((if props.exclude.isEmpty then groups0
        else removeExcludedFiles env il props.exclude groups0).filter
        (fun x => !x.files.isEmpty)) := by
    simp only [addOneComponent, hid, hgroups, Except.ok.injEq] at hok
    exact hok.symm
  refine ⟨?_, ?_, ?_, ?_, ?_⟩
  · intro g hg
    rw [hg] at hassemble
    exact hassemble
  · intro g g2 gs hg
    rw [hg] at hassemble
    refine ⟨?_, ?_, ?_, ?_⟩
    · rw [hassemble]; rfl
    · rw [hassemble]; rfl
    · rw [hassemble]; rfl
    · intro f hf
      rw [hassemble] at hf
      exact mergeFilesByPath_test _ f hf
  · intro h1 h2 h3
    simp [addInner, h1, h2, h3]
  · intro h1 h2 h3
    simp [addInner, h1, h2, h3]
  · intro cs h i e he
    exact resolveEachPath_get env props il _ cs h i e he

/-- C4 (counterexample): three refuting instances of the original claim.
First, collapsing the two groups of `envC4`, the first group's entry for
`comp/foo.js` has `test := false` yet the collapsed entry has
`test := true` — the first value per path does not win.  Second, with an
exclude pattern matching the first group's main file (`envC4x`), the result
is the second group alone: its main file `p/b.js` is adopted, not the first
group's `p/a.js`, and `p/a.js` is absent from the resulting file set — so
`mainFile` is not taken from the first group and the files are not the
union over all groups.  Third, with two resolved paths, no id, and a test
pattern matching the second path (`envC10`), only one component is added —
so not every input path becomes its own component. -/
theorem collapse_claim_cex :
    resolveGroups envC4 propsC4 [] 2 statsC4 (some ⟨none, "comp", "thing", none⟩) =
      .ok ([gC4a, gC4b], some ⟨none, "comp", "thing", none⟩) ∧
    resolveInitialId envC4 propsC4 = .ok (some ⟨none, "comp", "thing", none⟩) ∧
    gC4a.files = [⟨"comp/foo.js", false, "foo.js"⟩] ∧
    addOneComponent envC4 propsC4 [] statsC4 = .ok cC4 ∧
    cC4.files = [⟨"comp/foo.js", true, "foo.js"⟩, ⟨"comp/baz.js", false, "baz.js"⟩] ∧
    (⟨"comp/foo.js", true, "foo.js"⟩ : ComponentMapFile) ≠
      ⟨"comp/foo.js", false, "foo.js"⟩ ∧
    (resolveGroups envC4x propsC4x [] 2 statsC4x (some ⟨none, "p", "c", none⟩) =
       .ok ([gC4x1, gC4x2], some ⟨none, "p", "c", none⟩) ∧
     resolveInitialId envC4x propsC4x = .ok (some ⟨none, "p", "c", none⟩) ∧
     gC4x1.mainFile = some "p/a.js" ∧
     addOneComponent envC4x propsC4x [] statsC4x = .ok cC4x ∧
     cC4x.mainFile = some "p/b.js" ∧
     (some "p/b.js" : Option String) ≠ some "p/a.js" ∧
     ∀ f ∈ cC4x.files, f.relativePath ≠ "p/a.js") ∧
    (propsC10.componentPaths.length = 2 ∧ propsC10.id = none ∧
     (addInner envC10 propsC10).map (fun r => r.1.map (·.id)) = .ok ["r/a"]) :=
  ⟨by decide, by decide, by decide, by decide, by decide, by decide,
   ⟨by decide, by decide, by decide, by decide, by decide, by decide, by decide⟩,
   ⟨by decide, by decide, by decide⟩⟩

/-- Witness for C4's amended theorem, applied at both collapse instances:
without excludes, the collapsed files are the field-wise merge with
`rootDir` from the first surviving group; with the exclude pattern emptying
the first group, the assembled component is the surviving second group. -/
theorem addOneComponent_collapse_witness :
    (cC4.files = mergeFilesByPath (flatMapL (·.files) [gC4a, gC4b]) ∧
     cC4.rootDir = gC4a.rootDir) ∧
    cC4x = gC4x2 :=
  have h := addOneComponent_collapse envC4 propsC4 [] statsC4 cC4
    (some ⟨none, "comp", "thing", none⟩) [gC4a, gC4b]
    (some ⟨none, "comp", "thing", none⟩) (by decide) (by decide) (by decide)
  have hx := addOneComponent_collapse envC4x propsC4x [] statsC4x cC4x
    (some ⟨none, "p", "c", none⟩) [gC4x1, gC4x2]
    (some ⟨none, "p", "c", none⟩) (by decide) (by decide) (by decide)
  have h2 := h.2.1 gC4a gC4b [] (by decide)
  ⟨⟨h2.1, h2.2.2.1⟩, hx.1 gC4x2 (by decide)⟩
